import Mathlib

/-!
Verification development for the `datanorm_writer` repository
(`datanorm_writer/base.py`, `datanorm_writer/rows.py`).

The Python code is shallowly embedded: each field class's `process`
method becomes a Lean function on an explicit descriptor record, raised
exceptions become `Except.error`, and raw Python values become the
`PyVal` sum type.  Python's `unicodedata.normalize("NFKC", ...)` comes
from the standard library, not from this repository, so it is passed in
as an abstract `nfkc : String → String` parameter; theorems quantify
over it (or fix it to `id` in concrete evaluations, sound for the
NFKC-invariant ASCII inputs used there).
-/

namespace DatanormWriter

/-- Raw Python values handed to `process`: `None`, strings, ints and
`datetime.date`-like values. -/
inductive PyVal where
  | vnone
  | vstr (s : String)
  | vint (k : Int)
  | vdate (year month day : Nat)
  deriving DecidableEq, Repr

/-- Exceptions raised by the Python code.  Every constructor except
`typeError` and `assertionFailed` corresponds to a `raise ValueError`
site in `base.py` (the spec's `ValidationError`); `typeError` marks the
places where the untyped code would raise an uncaught `TypeError` or
`AttributeError`, and `assertionFailed` models the `assert` in
`VorlaufZeile.output`. -/
inductive PyErr where
  | lengthConfigConflict
  | fieldMustNotBeEmpty
  | valueNotPermitted
  | fixedLengthNone
  | lengthMismatch
  | maxLengthExceeded
  | cannotConvert
  | numberTooBig
  | staticValueMismatch
  | noneNotAValidDate
  | typeError
  | assertionFailed
  deriving DecidableEq, Repr

/-- `e.isValidationError` is true for the errors the spec calls
`ValidationError` (Python `ValueError`). -/
def PyErr.isValidationError : PyErr → Bool
  | .typeError => false
  | .assertionFailed => false
  | _ => true

/-- Python truthiness of a raw value (`not value` in `process`):
`None`, `""` and `0` are falsy; date objects are always truthy. -/
def pyFalsy : PyVal → Bool
  | .vnone => true
  | .vstr s => s.isEmpty
  | .vint k => k == 0
  | .vdate _ _ _ => false

/-- `value is None`. -/
def isNoneVal : PyVal → Bool
  | .vnone => true
  | _ => false

/-- Python truthiness of an optional int attribute such as
`self.length` (`None` and `0` are falsy). -/
def pyTruthyNat : Option Nat → Bool
  | none => false
  | some n => n != 0

/-- Decimal digits of a natural number, left-padded with `0` to
`width` characters (never truncated). -/
def natPad (width : Nat) (n : Nat) : String :=
  String.mk (List.replicate (width - (toString n).length) '0') ++ toString n

/-- Python `str(k)` for an int. -/
def pyIntRepr (k : Int) : String :=
  if k < 0 then "-" ++ toString k.natAbs else toString k.natAbs

/-- Python `"%0*d" % (width, k)`: zero-pad the decimal rendering of `k`
to at least `width` characters (the sign counts toward the width). -/
def pyIntPad (width : Nat) (k : Int) : String :=
  if k < 0 then
    String.mk ('-' :: List.replicate (width - 1 - (toString k.natAbs).length) '0')
      ++ toString k.natAbs
  else natPad width k.natAbs

/-- Python `str(date(y, m, d))`, i.e. ISO `YYYY-MM-DD`. -/
def pyDateStr (y m d : Nat) : String :=
  natPad 4 y ++ "-" ++ natPad 2 m ++ "-" ++ natPad 2 d

/-- Python `str(value or "")` as used by `StringField.process`. -/
def pyStrOrEmpty (value : PyVal) : String :=
  if pyFalsy value then ""
  else
    match value with
    | .vnone => ""
    | .vstr s => s
    | .vint k => pyIntRepr k
    | .vdate y m d => pyDateStr y m d

/-- `value.replace("\n", " ")`: every LF becomes one space; no other
character (in particular no CR) is touched. -/
def pyReplaceNewline (s : String) : String :=
  String.mk (s.data.map (fun c => if c = '\n' then ' ' else c))

/-- Descriptor state of a `StringField` after construction
(`FieldBase.__init__` plus `StringField.__init__`).  The registrar
attributes (`index`, `field_name`) live in `FieldMeta` below. -/
structure StringFieldDesc where
  length : Option Nat
  maxLength : Option Nat
  name : Option String
  blank : Bool
  required : Bool
  values : Option (List String)
  deriving DecidableEq, Repr

/-- `self.values and value not in self.values` for a string field;
the `values` attribute of `StringField` is a string or sequence of
strings, modelled as a list of strings (membership of a 1-character
string in a Python string coincides with list membership here). -/
def stringValuesReject (values : Option (List String)) (value : PyVal) : Bool :=
  match values with
  | none => false
  | some vs =>
    !vs.isEmpty &&
      !(match value with
        | .vstr s => vs.contains s
        | _ => false)

/-- `StringField.process` (`base.py` lines 154-181). -/
def stringProcess (f : StringFieldDesc) (value : PyVal) : Except PyErr String :=
  if pyFalsy value = true ∧ f.blank = true then .ok ""
  else if pyFalsy value = true ∧ f.required = true then .error .fieldMustNotBeEmpty
  else if stringValuesReject f.values value = true then .error .valueNotPermitted
  else if isNoneVal value = true ∧ pyTruthyNat f.length = true then .error .fixedLengthNone
  else if pyTruthyNat f.length = true ∧ (pyStrOrEmpty value).length ≠ f.length.getD 0 then
    .error .lengthMismatch
  else if pyTruthyNat f.maxLength = true ∧ f.maxLength.getD 0 < (pyStrOrEmpty value).length then
    .error .maxLengthExceeded
  else .ok (pyReplaceNewline (pyStrOrEmpty value))

/-- `FieldBase.__init__`'s consistency check:
`if length and max_length and length != max_length: raise ValueError`. -/
def fieldBaseInitOk (maxLength length : Option Nat) : Bool :=
  !(pyTruthyNat length && pyTruthyNat maxLength && length.getD 0 != maxLength.getD 0)

/-- `StringField.__init__`: note that the `values` argument is
discarded — the source assigns `self.values = None` (line 151), so the
allowed-values check in `StringField.process` is dead code. -/
def mkStringField (values : Option (List String)) (maxLength length : Option Nat)
    (name : Option String) (blank required : Bool) : Except PyErr StringFieldDesc :=
  if fieldBaseInitOk maxLength length then
    .ok { length := length, maxLength := maxLength, name := name,
          blank := blank, required := required, values := none }
  else .error .lengthConfigConflict

/-- Descriptor state of an `IntegerField` after construction
(here `self.values = values` really is kept). -/
structure IntegerFieldDesc where
  length : Option Nat
  maxLength : Option Nat
  name : Option String
  blank : Bool
  required : Bool
  values : Option (List Int)
  deriving DecidableEq, Repr

/-- `self.values and value not in self.values` for an integer field. -/
def intValuesReject (values : Option (List Int)) (value : PyVal) : Bool :=
  match values with
  | none => false
  | some vs =>
    !vs.isEmpty &&
      !(match value with
        | .vint k => vs.contains k
        | _ => false)

/-- `IntegerField.process` (`base.py` lines 189-215).  Note: the
`required` attribute is never consulted, and with `length` set the
zero-padded rendering is returned without any length re-check. -/
def integerProcess (f : IntegerFieldDesc) (value : PyVal) : Except PyErr String :=
  if f.blank = true ∧ isNoneVal value = true then .ok ""
  else if isNoneVal value = true ∧ pyTruthyNat f.length = true then .error .fixedLengthNone
  else if intValuesReject f.values value = true then .error .valueNotPermitted
  else if pyTruthyNat f.length = true then
    match value with
    | .vint k => .ok (pyIntPad (f.length.getD 0) k)
    | _ => .error .cannotConvert
  else
    match value with
    | .vnone => .ok ""
    | .vint k =>
      match f.maxLength with
      | none => .error .typeError
      | some m => if m < (pyIntRepr k).length then .error .numberTooBig else .ok (pyIntRepr k)
    | _ => .error .typeError

/-- `IntegerField.__init__`. -/
def mkIntegerField (values : Option (List Int)) (maxLength length : Option Nat)
    (name : Option String) (blank required : Bool) : Except PyErr IntegerFieldDesc :=
  if fieldBaseInitOk maxLength length then
    .ok { length := length, maxLength := maxLength, name := name,
          blank := blank, required := required, values := values }
  else .error .lengthConfigConflict

/-- `StaticField.process`: returns the constant unless a different
non-`None` value was supplied. -/
def staticProcess (c : String) (value : PyVal) : Except PyErr String :=
  if isNoneVal value = false ∧ value ≠ .vstr c then .error .staticValueMismatch
  else .ok c

/-- `ShortDateField.process`: format `value` as `DDMMYY` via
`strftime("%d%m%y")`, then run the inherited `StringField.process`
(whose `length` was forced to 6 by `ShortDateField.__init__`).
Non-date, non-`None` values would hit `value.strftime` and raise an
`AttributeError`, modelled as `typeError`. -/
def shortDateProcess (f : StringFieldDesc) (value : PyVal) : Except PyErr String :=
  if pyFalsy value = true ∧ f.blank = true then .ok ""
  else
    match value with
    | .vnone => .error .noneNotAValidDate
    | .vdate y m d => stringProcess f (.vstr (natPad 2 d ++ natPad 2 m ++ natPad 2 (y % 100)))
    | _ => .error .typeError

/-- `DateField.process`: format as `"%04d%02d%02d" % (year, month, day)`
then run the inherited `StringField.process` (`length` forced to 8). -/
def dateProcess (f : StringFieldDesc) (value : PyVal) : Except PyErr String :=
  if pyFalsy value = true ∧ f.blank = true then .ok ""
  else
    match value with
    | .vnone => .error .noneNotAValidDate
    | .vdate y m d => stringProcess f (.vstr (natPad 4 y ++ natPad 2 m ++ natPad 2 d))
    | _ => .error .typeError

/-! ## Charset table and encoder (`base.py` lines 79-124) -/

/-- `valid_ascii_characters` (the apostrophe is written via its code
point).  Note that the string contains `:` but not `;`. -/
def validAsciiCharacters : String :=
  "\t !\"#$%&" ++ String.singleton (Char.ofNat 39) ++ "()*+,-./0123456789:<=>?@^_" ++
    "ABCDEFGHIJKLMNOPQRSTUVWXYZ" ++ "abcdefghijklmnopqrstuvwxyz[]"

/-- `custom_characters`: the seven Latin letters with fixed non-ASCII
code points. -/
def customCharacters : List (Char × List Nat) :=
  [(Char.ofNat 0xfc, [0x81]), (Char.ofNat 0xf6, [0x94]), (Char.ofNat 0xe4, [0x84]),
   (Char.ofNat 0xdc, [0x9a]), (Char.ofNat 0xc4, [0x8e]), (Char.ofNat 0xd6, [0x99]),
   (Char.ofNat 0xdf, [0xe1])]

/-- `charset_translations`: ASCII characters map to their own code
point (`x.encode("ascii")`), updated with `custom_characters`.  The two
key sets are disjoint, so the dict is modelled as an association
list. -/
def charsetTranslations : List (Char × List Nat) :=
  validAsciiCharacters.data.map (fun c => (c, [c.toNat])) ++ customCharacters

/-- `charset.get(x, default)` on the association-list model of a dict. -/
def assocLookup (table : List (Char × List Nat)) (c : Char) : Option (List Nat) :=
  match table with
  | [] => none
  | (k, v) :: rest => if k = c then some v else assocLookup rest c

/-- `normalize_and_encode` (`base.py` lines 101-124).  The first
component is the diagnostic `set(value) - set(charset.keys())` that is
logged (never raised); the second is
`b"".join(charset.get(x, b"") for x in value)`, accumulated left to
right as the generator is consumed.  The function is total: unmappable
characters contribute no bytes but encoding always completes. -/
def normalizeAndEncode (nfkc : String → String) (charset : List (Char × List Nat))
    (value : String) (fieldName : Option String) : List Char × List Nat :=
  let v := nfkc value
  ((v.data.filter (fun c => (assocLookup charset c).isNone)).dedup,
   v.data.foldl (fun acc c => acc ++ (assocLookup charset c).getD []) [])

/-! ## Text chunker (`base.py` lines 127-146) -/

/-- Whitespace stripped by Python `str.strip()` (the ASCII whitespace
characters; the inputs of interest contain no exotic Unicode spaces). -/
def pyIsSpace (c : Char) : Bool :=
  c = ' ' || c = '\t' || c = '\n' || c = Char.ofNat 13 || c = Char.ofNat 11 || c = Char.ofNat 12

/-- `line.strip()`. -/
def pyStrip (l : List Char) : List Char :=
  ((l.dropWhile pyIsSpace).reverse.dropWhile pyIsSpace).reverse

/-- Line-boundary characters recognised by Python `str.splitlines()`. -/
def pyIsLineBreak (c : Char) : Bool :=
  c = '\n' || c = Char.ofNat 13 || c = Char.ofNat 11 || c = Char.ofNat 12 ||
    c = Char.ofNat 28 || c = Char.ofNat 29 || c = Char.ofNat 30 || c = Char.ofNat 133 ||
    c = Char.ofNat 8232 || c = Char.ofNat 8233

/-- Worker for `pySplitlines`: `acc` holds the current line reversed;
`\r\n` counts as a single boundary; a trailing boundary produces no
empty final line. -/
def splitlinesAux : List Char → List Char → List (List Char)
  | [], acc => if acc.isEmpty then [] else [acc.reverse]
  | c :: rest, acc =>
    if c = Char.ofNat 13 then
      acc.reverse :: splitlinesAux (rest.drop (if rest.head? = some '\n' then 1 else 0)) []
    else if pyIsLineBreak c then acc.reverse :: splitlinesAux rest []
    else splitlinesAux rest (c :: acc)
termination_by l _ => l.length
decreasing_by all_goals simp only [List.length_drop, List.length_cons]; omega

/-- `text.splitlines()`. -/
def pySplitlines (l : List Char) : List (List Char) :=
  splitlinesAux l []

/-- Index of the last occurrence of `c` in `l`
(`line[:chunk_size].rfind(split_char)`, with `none` for `-1`). -/
def pyRFind : List Char → Char → Option Nat
  | [], _ => none
  | x :: xs, c =>
    match pyRFind xs c with
    | some p => some (p + 1)
    | none => if x = c then some 0 else none

/-- `separate_at`: the last split-character position within the first
`chunkSize` characters, or `chunkSize` itself when there is none. -/
def chunkSeparateAt (line : List Char) (chunkSize : Nat) (splitChar : Char) : Nat :=
  match pyRFind (line.take chunkSize) splitChar with
  | some p => p
  | none => chunkSize

/-- The `while True` loop body of `chunk_text` for one line, with
explicit fuel: the Python loop need not terminate for adversarial split
characters (the remainder may fail to shrink), so the model emits the
chunks produced within `fuel` iterations; every theorem below holds for
every fuel. -/
def chunkLine : Nat → List Char → Nat → Char → List (List Char)
  | 0, _, _, _ => []
  | fuel + 1, line, chunkSize, splitChar =>
    if chunkSize < (pyStrip line).length then
      (pyStrip line).take (chunkSeparateAt (pyStrip line) chunkSize splitChar) ::
        chunkLine fuel ((pyStrip line).drop (chunkSeparateAt (pyStrip line) chunkSize splitChar))
          chunkSize splitChar
    else [pyStrip line]

/-- `chunk_text(text, chunk_size, split_char)`: normalize, split into
lines, and chunk each line in order. -/
def chunkText (fuel : Nat) (nfkc : String → String) (text : String) (chunkSize : Nat)
    (splitChar : Char) : List (List Char) :=
  (pySplitlines (nfkc text).data).flatMap (fun line => chunkLine fuel line chunkSize splitChar)

/-! ## Schema registrar (`base.py` lines 55-76) -/

/-- The registrar-visible attributes of a field descriptor:
`creation_counter` (set by `FieldBase.__init__` from the global
counter), the optional explicit `name`, the `index` (ordinal) and the
`field_name`, both initially `None`. -/
structure FieldMeta where
  creationCounter : Nat
  name : Option String
  index : Option Nat
  fieldName : Option String
  deriving DecidableEq, Repr

/-- Python `str.capitalize()`: first character upper-cased, the rest
lower-cased. -/
def pyCapitalize (s : String) : String :=
  match s.data with
  | [] => ""
  | c :: rest => String.mk (c.toUpper :: rest.map Char.toLower)

/-- `field_name.replace("_", " ").capitalize()`. -/
def defaultFieldName (fieldName : String) : String :=
  pyCapitalize (String.mk (fieldName.data.map (fun c => if c = '_' then ' ' else c)))

/-- Stable insertion into a list sorted by `creationCounter` (Python
`sorted` is stable; sortedness plus stability determines the result, so
any stable sort models it). -/
def insertFieldByCounter (x : String × FieldMeta) :
    List (String × FieldMeta) → List (String × FieldMeta)
  | [] => [x]
  | y :: rest =>
    if x.2.creationCounter ≤ y.2.creationCounter then x :: y :: rest
    else y :: insertFieldByCounter x rest

/-- Stable sort by `creationCounter`. -/
def sortFieldsByCounter : List (String × FieldMeta) → List (String × FieldMeta)
  | [] => []
  | x :: rest => insertFieldByCounter x (sortFieldsByCounter rest)

/-- `get_declared_fields`: sort the declared descriptors by creation
counter, then walk them with `enumerate`; the default display name AND
the `index` are assigned only inside the `if field.name is None`
branch, while `field_name` is always set; finally the list is sorted
again (a no-op) and returned in order. -/
def getDeclaredFields (attrs : List (String × FieldMeta)) : List (String × FieldMeta) :=
  let sorted := sortFieldsByCounter attrs
  let assigned := sorted.enum.map (fun p =>
    if p.2.2.name = none then
      (p.2.1,
       { creationCounter := p.2.2.creationCounter, name := some (defaultFieldName p.2.1),
         index := some p.1, fieldName := some p.2.1 })
    else
      (p.2.1, { p.2.2 with fieldName := some p.2.1 }))
  sortFieldsByCounter assigned

/-! ## Row encoder (`base.py` lines 289-317, `rows.py` lines 9-30) -/

/-- The field kinds declared in this repository, each carrying its
post-construction descriptor. -/
inductive Field where
  | str (f : StringFieldDesc)
  | int (f : IntegerFieldDesc)
  | static (c : String)
  | shortDate (f : StringFieldDesc)
  | longDate (f : StringFieldDesc)
  deriving Repr

/-- Dispatch to the kind's `process`. -/
def processField : Field → PyVal → Except PyErr String
  | .str f, v => stringProcess f v
  | .int f, v => integerProcess f v
  | .static c, v => staticProcess c v
  | .shortDate f, v => shortDateProcess f v
  | .longDate f, v => dateProcess f v

/-- The generator inside `RowBase.output`: process each field's value
(missing kwargs are `None`), encode it, and collect the per-field byte
strings; the first exception aborts the row. -/
def encodeParts (nfkc : String → String) (charset : List (Char × List Nat))
    (values : String → PyVal) : List (String × Field) → Except PyErr (List (List Nat))
  | [] => .ok []
  | nf :: rest =>
    match processField nf.2 (values nf.1) with
    | .error e => .error e
    | .ok s =>
      match encodeParts nfkc charset values rest with
      | .error e => .error e
      | .ok parts => .ok ((normalizeAndEncode nfkc charset s (some nf.1)).2 :: parts)

/-- `separator.join(parts)`. -/
def pyBytesJoin (sep : List Nat) : List (List Nat) → List Nat
  | [] => []
  | [p] => p
  | p :: rest => p ++ sep ++ pyBytesJoin sep rest

/-- `RowBase.output`: the per-field encoded byte strings joined with
the separator, plus one trailing separator. -/
def rowOutput (nfkc : String → String) (charset : List (Char × List Nat)) (sep : List Nat)
    (fields : List (String × Field)) (values : String → PyVal) : Except PyErr (List Nat) :=
  match encodeParts nfkc charset values fields with
  | .error e => .error e
  | .ok parts => .ok (pyBytesJoin sep parts ++ sep)

/-- A `StringField(length=n)` descriptor as constructed in
`VorlaufZeile` for the three information texts. -/
def infoFieldDesc (n : Nat) : StringFieldDesc :=
  { length := some n, maxLength := none, name := none,
    blank := false, required := false, values := none }

/-- `ShortDateField()` descriptor: `__init__` forces `length = 6`. -/
def shortDateFieldDesc : StringFieldDesc :=
  { length := some 6, maxLength := none, name := none,
    blank := false, required := false, values := none }

/-- The fields of `VorlaufZeile` (`rows.py` lines 9-21) in declaration
order, keyed by attribute name. -/
def vorlaufFields : List (String × Field) :=
  [("satzartenkennzeichen", .static "V"),
   ("dummy", .static " "),
   ("erstellungsdatum", .shortDate shortDateFieldDesc),
   ("informationstext1", .str (infoFieldDesc 40)),
   ("informationstext2", .str (infoFieldDesc 40)),
   ("informationstext3", .str (infoFieldDesc 35)),
   ("version", .static "04"),
   ("waehrungskennzeichen", .static "EUR")]

/-- `VorlaufZeile.output`: the inherited row output with the empty
separator, followed by `assert len(output) == 128`. -/
def vorlaufOutput (nfkc : String → String) (values : String → PyVal) :
    Except PyErr (List Nat) :=
  match rowOutput nfkc charsetTranslations [] vorlaufFields values with
  | .error e => .error e
  | .ok out => if out.length = 128 then .ok out else .error .assertionFailed

/-! ## Concrete rows and values used in witnesses and counterexamples -/

/-- A `StringField(max_length=30)` descriptor, as in the `TestRow`
classes of `tests.py`. -/
def maxLen30Desc : StringFieldDesc :=
  { length := none, maxLength := some 30, name := none,
    blank := false, required := false, values := none }

/-- The two-field test row (`tests.py` `test_separator`). -/
def twoDemoFields : List (String × Field) :=
  [("a", .str maxLen30Desc), ("b", .str maxLen30Desc)]

/-- Values `a="a", b="b"` for the two-field test row. -/
def twoDemoValues : String → PyVal :=
  fun n => if n = "a" then .vstr "a" else if n = "b" then .vstr "b" else .vnone

/-- Forty spaces (`" " * 40`). -/
def spaces40 : String := String.mk (List.replicate 40 ' ')

/-- Thirty-five spaces (`" " * 35`). -/
def spaces35 : String := String.mk (List.replicate 35 ' ')

/-- The `VorlaufZeile` keyword arguments of `tests.py`'s
`example_export`: creation date 2014-10-11 and all-space info texts. -/
def vorlaufDemoValues : String → PyVal := fun n =>
  if n = "erstellungsdatum" then .vdate 2014 10 11
  else if n = "informationstext1" then .vstr spaces40
  else if n = "informationstext2" then .vstr spaces40
  else if n = "informationstext3" then .vstr spaces35
  else .vnone

/-- Forty degree signs: a value that passes the 40-character fixed
length validation but whose characters are absent from the charset
table (the degree sign is NFKC-invariant, so `id` models NFKC on it). -/
def degrees40 : String := String.mk (List.replicate 40 '°')

/-- `vorlaufDemoValues` with the first information text replaced by
forty unmappable degree signs. -/
def vorlaufDegreeValues : String → PyVal := fun n =>
  if n = "informationstext1" then .vstr degrees40 else vorlaufDemoValues n

/-- An `IntegerField(length=3)` descriptor, as in `tests.py`
`test_padding`. -/
def mkIntDesc3 : IntegerFieldDesc :=
  { length := some 3, maxLength := none, name := none,
    blank := false, required := false, values := none }

/-! ## Helper lemmas -/

theorem foldl_append_eq_join (g : Char → List Nat) :
    ∀ (l : List Char) (init : List Nat),
      l.foldl (fun acc c => acc ++ g c) init = init ++ (l.map g).flatten := by
  intro l
  induction l with
  | nil => intro init; simp
  | cons c rest ih => intro init; simp [ih, List.append_assoc]

theorem assocLookup_mem {t : List (Char × List Nat)} {c : Char} {bs : List Nat}
    (h : assocLookup t c = some bs) : (c, bs) ∈ t := by
  induction t with
  | nil => simp [assocLookup] at h
  | cons p rest ih =>
    rw [assocLookup] at h
    split at h
    · rename_i hk
      cases h
      exact hk ▸ List.mem_cons_self p rest
    · exact List.mem_cons_of_mem p (ih h)

theorem charsetTranslations_value_length {c : Char} {bs : List Nat}
    (h : assocLookup charsetTranslations c = some bs) : bs.length = 1 := by
  have hmem := assocLookup_mem h
  have hall : ∀ p ∈ charsetTranslations, p.2.length = 1 := by decide
  exact hall (c, bs) hmem

theorem charsetTranslations_no_semicolon {c : Char} {bs : List Nat}
    (h : assocLookup charsetTranslations c = some bs) : ∀ b ∈ bs, b ≠ 59 := by
  have hmem := assocLookup_mem h
  have hall : ∀ p ∈ charsetTranslations, ∀ b ∈ p.2, b ≠ 59 := by decide
  exact hall (c, bs) hmem

theorem mem_normalizeAndEncode {nfkc : String → String} {charset : List (Char × List Nat)}
    {value : String} {fieldName : Option String} {b : Nat}
    (h : b ∈ (normalizeAndEncode nfkc charset value fieldName).2) :
    ∃ c bs, assocLookup charset c = some bs ∧ b ∈ bs := by
  rw [normalizeAndEncode] at h
  simp only [foldl_append_eq_join, List.nil_append, List.mem_flatten, List.mem_map] at h
  obtain ⟨l, ⟨c, _, rfl⟩, hb⟩ := h
  cases hlk : assocLookup charset c with
  | none => rw [hlk] at hb; simp at hb
  | some bs => exact ⟨c, bs, hlk, by rwa [hlk] at hb⟩

theorem encoded_chars_length_sum :
    ∀ l : List Char, (∀ c ∈ l, (assocLookup charsetTranslations c).isSome = true) →
      ((l.map (fun c => (assocLookup charsetTranslations c).getD [])).map List.length).sum
        = l.length := by
  intro l
  induction l with
  | nil => intro _; rfl
  | cons c rest ih =>
    intro hmap
    have hc := hmap c (List.mem_cons_self c rest)
    obtain ⟨bs, hbs⟩ := Option.isSome_iff_exists.mp hc
    simp only [List.map_cons, List.sum_cons, List.length_cons, hbs, Option.getD_some]
    rw [charsetTranslations_value_length hbs,
      ih (fun d hd => hmap d (List.mem_cons_of_mem _ hd))]
    omega

theorem normalizeAndEncode_length {nfkc : String → String} {s : String}
    {fieldName : Option String} (hfix : nfkc s = s)
    (hmap : ∀ c ∈ s.data, (assocLookup charsetTranslations c).isSome = true) :
    (normalizeAndEncode nfkc charsetTranslations s fieldName).2.length = s.length := by
  rw [normalizeAndEncode]
  simp only [hfix, foldl_append_eq_join, List.nil_append]
  rw [List.length_flatten, String.length]
  exact encoded_chars_length_sum s.data hmap

/-! ## Claim theorems -/

/-- Claim C5 (confirmed): the charset encoder is total (it returns a
diagnostics/bytes pair and cannot fail), its byte output is the
in-order concatenation of the table's byte mappings of each character
of the NFKC-normalized text with absent characters contributing nothing,
and every distinct missing character appears exactly once in the
diagnostics. -/
theorem charset_encoder_total_concat_drop :
    ∀ (nfkc : String → String) (charset : List (Char × List Nat)) (value : String)
      (fieldName : Option String),
      (normalizeAndEncode nfkc charset value fieldName).2 =
        ((nfkc value).data.map (fun c => (assocLookup charset c).getD [])).flatten ∧
      (∀ c ∈ (nfkc value).data, assocLookup charset c = none →
        c ∈ (normalizeAndEncode nfkc charset value fieldName).1) ∧
      (normalizeAndEncode nfkc charset value fieldName).1.Nodup := by
  intro nfkc charset value fieldName
  refine ⟨?_, ?_, ?_⟩
  · rw [normalizeAndEncode]
    simp [foldl_append_eq_join]
  · intro c hc hnone
    rw [normalizeAndEncode]
    simp only [List.mem_dedup, List.mem_filter]
    exact ⟨hc, by simp [hnone]⟩
  · rw [normalizeAndEncode]
    exact List.nodup_dedup _

/-- Witness for C5 at a concrete input: the degree sign is missing from
the default table, so it is reported in the diagnostics. -/
theorem charset_encoder_total_concat_drop_witness :
    '°' ∈ (normalizeAndEncode id charsetTranslations "XXX°YYY" none).1 :=
  (charset_encoder_total_concat_drop id charsetTranslations "XXX°YYY" none).2.1 '°'
    (by decide) (by decide)

/-- Claim C10 (confirmed): `;` (the default delimiter) is not a key of
the default charset table, and no byte produced by encoding any text
with the default table is `0x3B`, so field content cannot inject an
extra delimiter. -/
theorem default_charset_never_emits_semicolon :
    assocLookup charsetTranslations ';' = none ∧
      ∀ (nfkc : String → String) (value : String) (fieldName : Option String) (b : Nat),
        b ∈ (normalizeAndEncode nfkc charsetTranslations value fieldName).2 → b ≠ 59 := by
  constructor
  · decide
  · intro nfkc value fieldName b hb
    obtain ⟨c, bs, hlk, hmem⟩ := mem_normalizeAndEncode hb
    exact charsetTranslations_no_semicolon hlk b hmem

/-- Witness for C10: the encoded bytes of a text that even contains a
literal `;` do not contain the byte `0x3B`. -/
theorem default_charset_never_emits_semicolon_witness :
    (59 : Nat) ∉ (normalizeAndEncode id charsetTranslations ";ab;" none).2 :=
  fun hb => default_charset_never_emits_semicolon.2 id ";ab;" none 59 hb rfl

theorem pyReplaceNewline_length (t : String) : (pyReplaceNewline t).length = t.length := by
  rw [pyReplaceNewline]
  show (t.data.map _).length = t.length
  rw [List.length_map, String.length]

theorem pyReplaceNewline_no_newline (t : String) : '\n' ∉ (pyReplaceNewline t).data := by
  rw [pyReplaceNewline]
  show '\n' ∉ t.data.map _
  intro h
  rw [List.mem_map] at h
  obtain ⟨c, _, heq⟩ := h
  by_cases hc : c = '\n'
  · rw [if_pos hc] at heq
    exact absurd heq (by decide)
  · rw [if_neg hc] at heq
    exact hc heq

theorem stringProcess_ok_shape (f : StringFieldDesc) (v : PyVal) (s : String)
    (h : stringProcess f v = .ok s) :
    s = "" ∨ s = pyReplaceNewline (pyStrOrEmpty v) := by
  unfold stringProcess at h
  repeat' split at h
  all_goals first
    | exact Except.noConfusion h
    | exact Or.inl (Except.ok.inj h).symm
    | exact Or.inr (Except.ok.inj h).symm

/-- Claim C1 (refuted by the code, a code bug): `StringField.__init__`
assigns `self.values = None` instead of the `values` argument, so the
allowed-values check never fires for text fields.  Constructing the
`Artikelzeile.verarbeitungsmerker` field `StringField(values="AN",
length=1)` and processing the non-member `"X"` succeeds with `"X"`
instead of failing with a `ValidationError`. -/
theorem string_allowed_values_not_enforced :
    (mkStringField (some ["A", "N"]) none (some 1) none false false).map
        (fun d => (d.values, stringProcess d (.vstr "X"))) =
      .ok (none, .ok "X") := rfl

/-- The attributes of a row definition declaring first a field with an
explicit name and then a plain field (for claim C3). -/
def namedThenPlainAttrs : List (String × FieldMeta) :=
  [("a", { creationCounter := 0, name := some "Explicit", index := none, fieldName := none }),
   ("b", { creationCounter := 1, name := none, index := none, fieldName := none })]

/-- Claim C3 (refuted by the code, a code bug): in
`get_declared_fields` the assignment `field.index = index` sits inside
the `if field.name is None:` branch, so a descriptor constructed with
an explicit name never receives an ordinal: after registration of a
two-field definition whose first field has an explicit name, the
ordinals are `[None, 1]` — not the dense range `0..1` — and
`feldnummer` (`self.index + 1`) would raise a `TypeError` for the first
field. -/
theorem explicit_name_field_gets_no_ordinal :
    (getDeclaredFields namedThenPlainAttrs).map (fun p => (p.1, p.2.name, p.2.index)) =
      [("a", some "Explicit", none), ("b", some "B", some 1)] := rfl

/-- Claim C8, counterexample: an integer field with `required = True`,
`blank = False` and no fixed length accepts the absent value and
returns the empty string — `IntegerField.process` never consults
`required`, contradicting the claim that every field kind rejects
empty/absent values when required. -/
theorem required_integer_accepts_none :
    integerProcess
        { length := none, maxLength := some 5, name := none, blank := false,
          required := true, values := none } .vnone = .ok "" := rfl

/-- Claim C8 as amended: text-kind fields with `required = true` and
`blank = false` do fail with a `ValidationError` on every empty/absent
raw value, but integer-kind fields ignore `required`: with no truthy
fixed length and no allowed-values set, `process(None)` returns the
empty string. -/
theorem required_rejects_empty_only_for_text_fields :
    (∀ (f : StringFieldDesc) (v : PyVal), f.required = true → f.blank = false →
        pyFalsy v = true → stringProcess f v = .error .fieldMustNotBeEmpty) ∧
      ∀ f : IntegerFieldDesc, f.blank = false → pyTruthyNat f.length = false →
        f.values = none → integerProcess f .vnone = .ok "" := by
  constructor
  · intro f v hreq hblank hfalsy
    unfold stringProcess
    rw [if_neg (by simp [hfalsy, hblank]), if_pos ⟨hfalsy, hreq⟩]
  · intro f hblank hlen hvals
    unfold integerProcess
    rw [if_neg (by simp [hblank]), if_neg (by simp [hlen]),
      if_neg (by simp [intValuesReject, hvals]), if_neg (by simp [hlen])]

/-- Witness for the amended C8 at concrete inputs. -/
theorem required_rejects_empty_only_for_text_fields_witness :
    stringProcess
        { length := none, maxLength := some 5, name := none, blank := false,
          required := true, values := none } (.vstr "") = .error .fieldMustNotBeEmpty ∧
      integerProcess
        { length := none, maxLength := some 5, name := none, blank := false,
          required := true, values := none } .vnone = .ok "" :=
  ⟨required_rejects_empty_only_for_text_fields.1
      { length := none, maxLength := some 5, name := none, blank := false,
        required := true, values := none } (.vstr "") rfl rfl rfl,
    required_rejects_empty_only_for_text_fields.2
      { length := none, maxLength := some 5, name := none, blank := false,
        required := true, values := none } rfl rfl rfl⟩

/-- Claim C9, counterexample: a carriage return is a newline character,
but `StringField.process` only replaces `"\n"`; the value `"a\r b"`
passes validation and is returned with its CR intact. -/
theorem carriage_return_survives_string_process :
    stringProcess
        { length := none, maxLength := some 5, name := none, blank := false,
          required := false, values := none }
        (.vstr (String.mk ['a', Char.ofNat 13, 'b'])) =
      .ok (String.mk ['a', Char.ofNat 13, 'b']) ∧
      Char.ofNat 13 ∈ (String.mk ['a', Char.ofNat 13, 'b']).data :=
  ⟨rfl, by decide⟩

/-- Claim C9 as amended: text returned by a text field's `process`
contains no LF character — each `"\n"` is replaced by exactly one
space, and the replacement never changes the text's length — but other
newline characters such as `"\r"` are not replaced. -/
theorem string_process_replaces_only_lf :
    (∀ (f : StringFieldDesc) (v : PyVal) (s : String),
        stringProcess f v = .ok s → '\n' ∉ s.data) ∧
      ∀ t : String, (pyReplaceNewline t).length = t.length := by
  constructor
  · intro f v s h
    rcases stringProcess_ok_shape f v s h with rfl | rfl
    · intro hmem
      simp [String.data] at hmem
    · exact pyReplaceNewline_no_newline _
  · exact pyReplaceNewline_length

/-- Witness for the amended C9: processing `"a\nb"` yields `"a b"`,
which contains no LF, and the replacement preserved the length. -/
theorem string_process_replaces_only_lf_witness :
    '\n' ∉ ("a b" : String).data ∧
      (pyReplaceNewline (String.mk ['a', '\n', 'b'])).length =
        (String.mk ['a', '\n', 'b']).length :=
  ⟨string_process_replaces_only_lf.1
      { length := none, maxLength := some 5, name := none, blank := false,
        required := false, values := none }
      (.vstr (String.mk ['a', '\n', 'b'])) "a b" rfl,
    string_process_replaces_only_lf.2 (String.mk ['a', '\n', 'b'])⟩

theorem encodeParts_ok (nfkc : String → String) (charset : List (Char × List Nat))
    (values : String → PyVal) (fields : List (String × Field)) (ss : List String)
    (h : List.Forall₂ (fun nf s => processField nf.2 (values nf.1) = .ok s) fields ss) :
    encodeParts nfkc charset values fields =
      .ok (List.zipWith (fun nf s => (normalizeAndEncode nfkc charset s (some nf.1)).2)
        fields ss) := by
  induction h with
  | nil => rfl
  | cons h1 _ ih => simp [encodeParts, h1, ih]

/-- Claim C6 (confirmed): when every field of a row processes
successfully, `RowBase.output` is exactly the per-field encoded byte
strings, in field order, joined with the schema's separator and
followed by one trailing separator. -/
theorem row_output_is_join_with_trailing_separator
    (nfkc : String → String) (charset : List (Char × List Nat)) (sep : List Nat)
    (fields : List (String × Field)) (values : String → PyVal) (ss : List String)
    (h : List.Forall₂ (fun nf s => processField nf.2 (values nf.1) = .ok s) fields ss) :
    rowOutput nfkc charset sep fields values =
      .ok (pyBytesJoin sep
          (List.zipWith (fun nf s => (normalizeAndEncode nfkc charset s (some nf.1)).2)
            fields ss) ++ sep) := by
  rw [rowOutput, encodeParts_ok nfkc charset values fields ss h]

/-- Witness for C6, the spec's own example: a two-field row with values
`"a"`, `"b"` and separator `_` yields `b"a_b_"`. -/
theorem row_output_is_join_with_trailing_separator_witness :
    rowOutput id charsetTranslations [95] twoDemoFields twoDemoValues =
      .ok [97, 95, 98, 95] := by
  rw [row_output_is_join_with_trailing_separator id charsetTranslations [95] twoDemoFields
    twoDemoValues ["a", "b"] (List.Forall₂.cons rfl (List.Forall₂.cons rfl List.Forall₂.nil))]
  rfl

theorem pyRFind_lt (c : Char) : ∀ (l : List Char) (p : Nat),
    pyRFind l c = some p → p < l.length := by
  intro l
  induction l with
  | nil => intro p h; exact Option.noConfusion h
  | cons x xs ih =>
    intro p h
    rw [pyRFind] at h
    cases hr : pyRFind xs c with
    | some q =>
      simp only [hr] at h
      cases h
      have := ih q hr
      simp only [List.length_cons]
      omega
    | none =>
      simp only [hr] at h
      split at h
      · cases h
        simp
      · exact Option.noConfusion h

theorem chunkSeparateAt_le (line : List Char) (chunkSize : Nat) (splitChar : Char) :
    chunkSeparateAt line chunkSize splitChar ≤ chunkSize := by
  rw [chunkSeparateAt]
  cases hr : pyRFind (line.take chunkSize) splitChar with
  | none => simp
  | some p =>
    simp only
    have := pyRFind_lt splitChar (line.take chunkSize) p hr
    rw [List.length_take] at this
    omega

theorem chunkLine_chunk_le (chunkSize : Nat) (splitChar : Char) :
    ∀ (fuel : Nat) (line : List Char), ∀ ch ∈ chunkLine fuel line chunkSize splitChar,
      ch.length ≤ chunkSize := by
  intro fuel
  induction fuel with
  | zero => intro line ch hch; exact absurd hch (List.not_mem_nil ch)
  | succ fuel ih =>
    intro line ch hch
    rw [chunkLine] at hch
    split at hch
    · rcases List.mem_cons.mp hch with rfl | hch2
      · rw [List.length_take]
        have := chunkSeparateAt_le (pyStrip line) chunkSize splitChar
        omega
      · exact ih _ ch hch2
    · rename_i hle
      rw [List.mem_singleton] at hch
      subst hch
      omega

/-- Claim C7 (confirmed): for every input text, every width of at least
one, and every split character, each segment emitted by `chunk_text`
has length at most the width (this holds for every loop fuel, hence for
every chunk the possibly non-terminating Python loop ever appends). -/
theorem chunker_segments_within_width
    (fuel : Nat) (nfkc : String → String) (text : String) (chunkSize : Nat) (splitChar : Char)
    (hw : 1 ≤ chunkSize) :
    ∀ ch ∈ chunkText fuel nfkc text chunkSize splitChar, ch.length ≤ chunkSize := by
  intro ch hch
  rw [chunkText, List.mem_flatMap] at hch
  obtain ⟨line, _, hch2⟩ := hch
  exact chunkLine_chunk_le chunkSize splitChar fuel line ch hch2

/-- Witness for C7, the spec's own example at width 5. -/
theorem chunker_segments_within_width_witness :
    1 ≤ 5 ∧ ∀ ch ∈ chunkText 100 id "ABC DEF GHI JKL MNO QRS" 5 ' ', ch.length ≤ 5 :=
  ⟨by decide,
    chunker_segments_within_width 100 id "ABC DEF GHI JKL MNO QRS" 5 ' ' (by decide)⟩

theorem stringProcess_fixed_length (f : StringFieldDesc) (n : Nat) (v : PyVal) (s : String)
    (hn : f.length = some n) (h0 : n ≠ 0) (h : stringProcess f v = .ok s) :
    (f.blank = true ∧ s = "") ∨ s.length = n := by
  have htr : pyTruthyNat f.length = true := by
    rw [hn]
    simpa [pyTruthyNat] using h0
  unfold stringProcess at h
  split at h
  · rename_i hc
    exact Or.inl ⟨hc.2, (Except.ok.inj h).symm⟩
  split at h
  · exact Except.noConfusion h
  split at h
  · exact Except.noConfusion h
  split at h
  · exact Except.noConfusion h
  split at h
  · exact Except.noConfusion h
  rename_i hc5
  split at h
  · exact Except.noConfusion h
  right
  have hlen : (pyStrOrEmpty v).length = f.length.getD 0 := by
    by_contra hne
    exact hc5 ⟨htr, hne⟩
  rw [← (Except.ok.inj h), pyReplaceNewline_length, hlen, hn]
  rfl

theorem staticProcess_ok (c : String) (v : PyVal) (s : String)
    (h : staticProcess c v = .ok s) : s = c := by
  unfold staticProcess at h
  split at h
  · exact Except.noConfusion h
  · exact (Except.ok.inj h).symm

theorem shortDateProcess_fixed_length (f : StringFieldDesc) (v : PyVal) (s : String)
    (hn : f.length = some 6) (h : shortDateProcess f v = .ok s) :
    (f.blank = true ∧ s = "") ∨ s.length = 6 := by
  unfold shortDateProcess at h
  split at h
  · rename_i hc
    exact Or.inl ⟨hc.2, (Except.ok.inj h).symm⟩
  cases v with
  | vnone => exact Except.noConfusion h
  | vstr t => exact Except.noConfusion h
  | vint k => exact Except.noConfusion h
  | vdate y m d => exact stringProcess_fixed_length f 6 _ s hn (by decide) h

theorem dateProcess_fixed_length (f : StringFieldDesc) (v : PyVal) (s : String)
    (hn : f.length = some 8) (h : dateProcess f v = .ok s) :
    (f.blank = true ∧ s = "") ∨ s.length = 8 := by
  unfold dateProcess at h
  split at h
  · rename_i hc
    exact Or.inl ⟨hc.2, (Except.ok.inj h).symm⟩
  cases v with
  | vnone => exact Except.noConfusion h
  | vstr t => exact Except.noConfusion h
  | vint k => exact Except.noConfusion h
  | vdate y m d => exact stringProcess_fixed_length f 8 _ s hn (by decide) h

theorem pyIntPad_length (n : Nat) (k : Int) :
    (pyIntPad n k).length = max n (pyIntRepr k).length := by
  have hdash : ("-" : String).length = 1 := rfl
  have hmk : ∀ l : List Char, (String.mk l).length = l.length := fun _ => rfl
  rw [pyIntPad, pyIntRepr]
  split
  · rw [String.length_append, String.length_append, hmk, hdash]
    simp only [List.length_cons, List.length_replicate]
    omega
  · rw [natPad, String.length_append, hmk]
    simp only [List.length_replicate]
    omega

theorem integerProcess_fixed_length (f : IntegerFieldDesc) (n : Nat) (v : PyVal) (s : String)
    (hn : f.length = some n) (h0 : n ≠ 0) (h : integerProcess f v = .ok s) :
    (f.blank = true ∧ s = "") ∨ ∃ k, v = .vint k ∧ s = pyIntPad n k := by
  have htr : pyTruthyNat f.length = true := by
    rw [hn]
    simpa [pyTruthyNat] using h0
  unfold integerProcess at h
  split at h
  · rename_i hc
    exact Or.inl ⟨hc.1, (Except.ok.inj h).symm⟩
  split at h
  · exact Except.noConfusion h
  split at h
  · exact Except.noConfusion h
  cases v with
  | vnone => exact Except.noConfusion h
  | vstr t => exact Except.noConfusion h
  | vdate y m d => exact Except.noConfusion h
  | vint k =>
    right
    refine ⟨k, rfl, ?_⟩
    have hg : f.length.getD 0 = n := by rw [hn]; rfl
    rw [← (Except.ok.inj h), hg]

/-- Claim C2, counterexample: an integer field with fixed length 1
renders 42 as `"42"` — two characters — instead of failing, because
`"%0*d"` pads but never rejects over-long renderings. -/
theorem fixed_length_integer_overflows :
    integerProcess
        { length := some 1, maxLength := none, name := none, blank := false,
          required := false, values := none } (.vint 42) = .ok "42" ∧
      ("42" : String).length ≠ 1 := ⟨rfl, by decide⟩

/-- Claim C2 as amended: for text, static and date kinds with fixed
length `n`, `process` fails, returns `""` through the blank bypass, or
returns text of length exactly `n`; for the integer kind with fixed
length `n` the successful result is the zero-padded decimal rendering,
of length `max n (len (str k))` — equal to `n` exactly when the decimal
rendering fits — so an over-long value yields over-long text instead of
an error. -/
theorem fixed_length_fields_exact_or_zero_padded :
    (∀ (f : StringFieldDesc) (n : Nat) (v : PyVal) (s : String),
        f.length = some n → n ≠ 0 → stringProcess f v = .ok s →
        (f.blank = true ∧ s = "") ∨ s.length = n) ∧
      (∀ (c : String) (v : PyVal) (s : String),
        staticProcess c v = .ok s → s.length = c.length) ∧
      (∀ (f : StringFieldDesc) (v : PyVal) (s : String), f.length = some 6 →
        shortDateProcess f v = .ok s → (f.blank = true ∧ s = "") ∨ s.length = 6) ∧
      (∀ (f : StringFieldDesc) (v : PyVal) (s : String), f.length = some 8 →
        dateProcess f v = .ok s → (f.blank = true ∧ s = "") ∨ s.length = 8) ∧
      ∀ (f : IntegerFieldDesc) (n : Nat) (v : PyVal) (s : String),
        f.length = some n → n ≠ 0 → integerProcess f v = .ok s →
        (f.blank = true ∧ s = "") ∨
          ∃ k, v = .vint k ∧ s = pyIntPad n k ∧ s.length = max n (pyIntRepr k).length := by
  refine ⟨stringProcess_fixed_length, ?_, shortDateProcess_fixed_length,
    dateProcess_fixed_length, ?_⟩
  · intro c v s h
    rw [staticProcess_ok c v s h]
  · intro f n v s hn h0 h
    rcases integerProcess_fixed_length f n v s hn h0 h with hb | ⟨k, hv, hs⟩
    · exact Or.inl hb
    · exact Or.inr ⟨k, hv, hs, by rw [hs, pyIntPad_length]⟩

/-- Witness for the amended C2, instantiating every kind at concrete
inputs: a 5-character text, a static constant, both date kinds, and an
integer of fixed length 3 (where `process(10)` gives `"010"` as in the
repository tests). -/
theorem fixed_length_fields_exact_or_zero_padded_witness :
    ((((infoFieldDesc 5).blank = true ∧ "abcde" = "") ∨ ("abcde" : String).length = 5) ∧
        ("EUR" : String).length = ("EUR" : String).length) ∧
      ((shortDateFieldDesc.blank = true ∧ "111014" = "") ∨ ("111014" : String).length = 6) ∧
      (((infoFieldDesc 8).blank = true ∧ "20141011" = "") ∨
        ("20141011" : String).length = 8) ∧
      (((mkIntDesc3).blank = true ∧ "010" = "") ∨
        ∃ k, PyVal.vint 10 = .vint k ∧ "010" = pyIntPad 3 k ∧
          ("010" : String).length = max 3 (pyIntRepr k).length) :=
  ⟨⟨fixed_length_fields_exact_or_zero_padded.1 (infoFieldDesc 5) 5 (.vstr "abcde")
        "abcde" rfl (by decide) rfl,
      fixed_length_fields_exact_or_zero_padded.2.1 "EUR" .vnone "EUR" rfl⟩,
    fixed_length_fields_exact_or_zero_padded.2.2.1 shortDateFieldDesc (.vdate 2014 10 11)
      "111014" rfl rfl,
    fixed_length_fields_exact_or_zero_padded.2.2.2.1 (infoFieldDesc 8) (.vdate 2014 10 11)
      "20141011" rfl rfl,
    fixed_length_fields_exact_or_zero_padded.2.2.2.2 mkIntDesc3 3 (.vint 10) "010"
      rfl (by decide) rfl⟩

theorem pyBytesJoin_nil_length :
    ∀ ps : List (List Nat), (pyBytesJoin [] ps).length = (ps.map List.length).sum := by
  intro ps
  induction ps with
  | nil => rfl
  | cons p rest ih =>
    cases rest with
    | nil => simp [pyBytesJoin]
    | cons q rest2 =>
      simp only [pyBytesJoin, List.append_nil, List.length_append, List.map_cons,
        List.sum_cons] at ih ⊢
      omega

/-- Claim C4, counterexample: every field of this `VorlaufZeile` passes
per-field validation (the first information text is forty degree signs,
a valid 40-character string), yet the encoder drops the unmappable
characters, the output is 88 bytes instead of 128, and the
`assert len(output) == 128` fires — the output operation fails with an
`AssertionError` rather than producing 128 bytes. -/
theorem vorlauf_assertion_reachable_despite_valid_fields :
    (vorlaufFields.map (fun nf => processField nf.2 (vorlaufDegreeValues nf.1))) =
        [.ok "V", .ok " ", .ok "111014", .ok degrees40, .ok spaces40, .ok spaces35,
          .ok "04", .ok "EUR"] ∧
      vorlaufOutput id vorlaufDegreeValues = .error .assertionFailed :=
  ⟨rfl, rfl⟩

/-- Claim C4 as amended: for every `VorlaufZeile` whose field values
all pass per-field validation AND whose processed texts are
NFKC-invariant and consist only of characters present in the default
charset table, the output operation succeeds and produces exactly 128
bytes; the internal assertion is unreachable only under that
strengthened precondition (with unmappable characters it fires, as the
counterexample shows). -/
theorem vorlauf_output_exactly_128 (nfkc : String → String) (values : String → PyVal)
    (ss : List String)
    (h : List.Forall₂ (fun nf s =>
          processField nf.2 (values nf.1) = .ok s ∧ nfkc s = s ∧
            ∀ c ∈ s.data, (assocLookup charsetTranslations c).isSome = true)
        vorlaufFields ss) :
    ∃ bs, vorlaufOutput nfkc values = .ok bs ∧ bs.length = 128 := by
  have hrow := encodeParts_ok nfkc charsetTranslations values vorlaufFields ss
    (h.imp (fun _ _ hab => hab.1))
  rw [vorlaufFields] at h
  rcases h with _ | ⟨⟨hp1, hx1, hm1⟩, h⟩
  rcases h with _ | ⟨⟨hp2, hx2, hm2⟩, h⟩
  rcases h with _ | ⟨⟨hp3, hx3, hm3⟩, h⟩
  rcases h with _ | ⟨⟨hp4, hx4, hm4⟩, h⟩
  rcases h with _ | ⟨⟨hp5, hx5, hm5⟩, h⟩
  rcases h with _ | ⟨⟨hp6, hx6, hm6⟩, h⟩
  rcases h with _ | ⟨⟨hp7, hx7, hm7⟩, h⟩
  rcases h with _ | ⟨⟨hp8, hx8, hm8⟩, h⟩
  cases h
  rename_i s1 s2 s3 s4 s5 s6 s7 s8
  have hl1 : s1.length = 1 := by rw [staticProcess_ok _ _ _ hp1]; rfl
  have hl2 : s2.length = 1 := by rw [staticProcess_ok _ _ _ hp2]; rfl
  have hl3 : s3.length = 6 := by
    rcases shortDateProcess_fixed_length shortDateFieldDesc _ s3 rfl hp3 with ⟨hb, _⟩ | hl
    · exact absurd hb (by decide)
    · exact hl
  have hl4 : s4.length = 40 := by
    rcases stringProcess_fixed_length (infoFieldDesc 40) 40 _ s4 rfl (by decide) hp4 with
      ⟨hb, _⟩ | hl
    · exact absurd hb (by decide)
    · exact hl
  have hl5 : s5.length = 40 := by
    rcases stringProcess_fixed_length (infoFieldDesc 40) 40 _ s5 rfl (by decide) hp5 with
      ⟨hb, _⟩ | hl
    · exact absurd hb (by decide)
    · exact hl
  have hl6 : s6.length = 35 := by
    rcases stringProcess_fixed_length (infoFieldDesc 35) 35 _ s6 rfl (by decide) hp6 with
      ⟨hb, _⟩ | hl
    · exact absurd hb (by decide)
    · exact hl
  have hl7 : s7.length = 2 := by rw [staticProcess_ok _ _ _ hp7]; rfl
  have hl8 : s8.length = 3 := by rw [staticProcess_ok _ _ _ hp8]; rfl
  have he1 := @normalizeAndEncode_length nfkc s1 (some "satzartenkennzeichen") hx1 hm1
  have he2 := @normalizeAndEncode_length nfkc s2 (some "dummy") hx2 hm2
  have he3 := @normalizeAndEncode_length nfkc s3 (some "erstellungsdatum") hx3 hm3
  have he4 := @normalizeAndEncode_length nfkc s4 (some "informationstext1") hx4 hm4
  have he5 := @normalizeAndEncode_length nfkc s5 (some "informationstext2") hx5 hm5
  have he6 := @normalizeAndEncode_length nfkc s6 (some "informationstext3") hx6 hm6
  have he7 := @normalizeAndEncode_length nfkc s7 (some "version") hx7 hm7
  have he8 := @normalizeAndEncode_length nfkc s8 (some "waehrungskennzeichen") hx8 hm8
  have hz : List.zipWith (fun (nf : String × Field) (s : String) =>
      (normalizeAndEncode nfkc charsetTranslations s (some nf.1)).2) vorlaufFields
      [s1, s2, s3, s4, s5, s6, s7, s8] =
      [(normalizeAndEncode nfkc charsetTranslations s1 (some "satzartenkennzeichen")).2,
       (normalizeAndEncode nfkc charsetTranslations s2 (some "dummy")).2,
       (normalizeAndEncode nfkc charsetTranslations s3 (some "erstellungsdatum")).2,
       (normalizeAndEncode nfkc charsetTranslations s4 (some "informationstext1")).2,
       (normalizeAndEncode nfkc charsetTranslations s5 (some "informationstext2")).2,
       (normalizeAndEncode nfkc charsetTranslations s6 (some "informationstext3")).2,
       (normalizeAndEncode nfkc charsetTranslations s7 (some "version")).2,
       (normalizeAndEncode nfkc charsetTranslations s8 (some "waehrungskennzeichen")).2] := by
    rw [vorlaufFields]
    rfl
  rw [hz] at hrow
  have hrowOut : rowOutput nfkc charsetTranslations [] vorlaufFields values =
      .ok (pyBytesJoin []
        [(normalizeAndEncode nfkc charsetTranslations s1 (some "satzartenkennzeichen")).2,
         (normalizeAndEncode nfkc charsetTranslations s2 (some "dummy")).2,
         (normalizeAndEncode nfkc charsetTranslations s3 (some "erstellungsdatum")).2,
         (normalizeAndEncode nfkc charsetTranslations s4 (some "informationstext1")).2,
         (normalizeAndEncode nfkc charsetTranslations s5 (some "informationstext2")).2,
         (normalizeAndEncode nfkc charsetTranslations s6 (some "informationstext3")).2,
         (normalizeAndEncode nfkc charsetTranslations s7 (some "version")).2,
         (normalizeAndEncode nfkc charsetTranslations s8
           (some "waehrungskennzeichen")).2] ++ []) := by
    rw [rowOutput, hrow]
  have hlen : (pyBytesJoin []
      [(normalizeAndEncode nfkc charsetTranslations s1 (some "satzartenkennzeichen")).2,
       (normalizeAndEncode nfkc charsetTranslations s2 (some "dummy")).2,
       (normalizeAndEncode nfkc charsetTranslations s3 (some "erstellungsdatum")).2,
       (normalizeAndEncode nfkc charsetTranslations s4 (some "informationstext1")).2,
       (normalizeAndEncode nfkc charsetTranslations s5 (some "informationstext2")).2,
       (normalizeAndEncode nfkc charsetTranslations s6 (some "informationstext3")).2,
       (normalizeAndEncode nfkc charsetTranslations s7 (some "version")).2,
       (normalizeAndEncode nfkc charsetTranslations s8
         (some "waehrungskennzeichen")).2] ++ []).length = 128 := by
    rw [List.append_nil, pyBytesJoin_nil_length]
    simp only [List.map_cons, List.map_nil, List.sum_cons, List.sum_nil]
    rw [he1, he2, he3, he4, he5, he6, he7, he8, hl1, hl2, hl3, hl4, hl5, hl6, hl7, hl8]
    omega
  refine ⟨_, ?_, hlen⟩
  rw [vorlaufOutput, hrowOut]
  exact if_pos hlen

/-- Witness for the amended C4 at the repository test's own header
values: creation date 2014-10-11 and all-space information texts. -/
theorem vorlauf_output_exactly_128_witness :
    ∃ bs, vorlaufOutput id vorlaufDemoValues = .ok bs ∧ bs.length = 128 :=
  vorlauf_output_exactly_128 id vorlaufDemoValues
    ["V", " ", "111014", spaces40, spaces40, spaces35, "04", "EUR"]
    (List.Forall₂.cons ⟨rfl, rfl, by decide⟩
      (List.Forall₂.cons ⟨rfl, rfl, by decide⟩
        (List.Forall₂.cons ⟨rfl, rfl, by decide⟩
          (List.Forall₂.cons ⟨rfl, rfl, by decide⟩
            (List.Forall₂.cons ⟨rfl, rfl, by decide⟩
              (List.Forall₂.cons ⟨rfl, rfl, by decide⟩
                (List.Forall₂.cons ⟨rfl, rfl, by decide⟩
                  (List.Forall₂.cons ⟨rfl, rfl, by decide⟩ List.Forall₂.nil))))))))

end DatanormWriter
